import Mathlib

/-!
Verification development for `parse_lhe.cpp` (quicklhe), a two-pass LHE
(Les Houches Event) file parser.

Modelling conventions:
* A text file is a `List (List Char)` of lines (the C++ reads it with
  `std::getline`, so lines carry no `'\n'`).  A file that cannot be opened is
  `Option.none`.
* The expat SAX tokenizer is an external collaborator; its output is modelled
  as a `List XmlEvent` of tag-begin / tag-end / character-data events.  For
  concrete scenarios the event list is written out as expat would emit it for
  the given text.
* The four output buffers are flat arrays of `int` / `double`, modelled as
  total functions `ℕ → ℤ` / `ℕ → ℚ` (raw pointer writes into flat storage).
  The decimal literals appearing in the claims are exactly representable, so
  `ℚ` matches `double` on them; IEEE rounding is not modelled.
* `int` is 32 bits (the build targets ordinary 64-bit platforms where
  `int` is 32 bits); `std::from_chars` / `istream >> int` failure on
  out-of-range input is modelled by a range check.
* The `"inf"` / `"nan"` forms accepted by `std::from_chars<double>` have no
  finite value and are not modelled; no claim involves them.
-/

namespace LHE

/-- The whitespace set `" \t\n\r"` used by `consume_next`
    (`find_first_not_of(" \t\n\r")`). -/
def isWS (c : Char) : Bool := c = ' ' || c = '\t' || c = '\n' || c = '\r'

/-- C-locale `isspace`, used by `istream >> int` to skip leading whitespace:
    space, `\t`, `\n`, `\v`, `\f`, `\r`. -/
def isStreamWS (c : Char) : Bool := isWS c || c = '\x0b' || c = '\x0c'

/-- Value of a digit string (most significant first). -/
def digitsVal (ds : List Char) : ℕ := ds.foldl (fun a c => 10 * a + (c.toNat - '0'.toNat)) 0

def INT_MAX : ℤ := 2 ^ 31 - 1
def INT_MIN : ℤ := -(2 ^ 31)

/-- Model of `std::from_chars` for `int`, base 10: an optional `'-'` (no
    `'+'`), then the longest run of digits; fails if there is no digit, or if
    the value is out of `int` range (`errc::result_out_of_range`, which
    `consume_next` also treats as failure). -/
def fromCharsInt (t : List Char) : Option ℤ :=
  let p := match t with
    | '-' :: r => ((-1 : ℤ), r)
    | _ => ((1 : ℤ), t)
  let ds := p.2.takeWhile Char.isDigit
  if ds = [] then none
  else
    let v : ℤ := p.1 * (digitsVal ds : ℤ)
    if v < INT_MIN ∨ INT_MAX < v then none else some v

/-- Model of `std::from_chars` for `double` (decimal, default
    `chars_format::general`): optional `'-'`, then digits with an optional
    fractional part (at least one digit on one side of the `'.'`), then an
    optional exponent `eE [+-] digits` (ignored when it has no digits, as
    `from_chars` then backtracks to the longest valid prefix).  Parsing is
    best-effort on a prefix: trailing garbage does not cause failure, exactly
    as `from_chars` succeeds on the longest valid prefix. -/
def fromCharsRat (t : List Char) : Option ℚ :=
  let p := match t with
    | '-' :: r => ((-1 : ℤ), r)
    | _ => ((1 : ℤ), t)
  let ds := p.2.takeWhile Char.isDigit
  let r1 := p.2.dropWhile Char.isDigit
  let q := match r1 with
    | '.' :: r => (r.takeWhile Char.isDigit, r.dropWhile Char.isDigit)
    | _ => (([] : List Char), r1)
  if ds = [] ∧ q.1 = [] then none
  else
    let mantNum : ℤ :=
      p.1 * ((digitsVal ds : ℤ) * (10 : ℤ) ^ q.1.length + (digitsVal q.1 : ℤ))
    let e : ℤ := match q.2 with
      | c :: rest =>
        if c = 'e' ∨ c = 'E' then
          let s := match rest with
            | '-' :: rr => ((-1 : ℤ), rr)
            | '+' :: rr => ((1 : ℤ), rr)
            | _ => ((1 : ℤ), rest)
          let eds := s.2.takeWhile Char.isDigit
          if eds = [] then 0 else s.1 * (digitsVal eds : ℤ)
        else 0
      | [] => 0
    some (if 0 ≤ e then mkRat (mantNum * (10 : ℤ) ^ e.toNat) ((10 : ℕ) ^ q.1.length)
          else mkRat mantNum ((10 : ℕ) ^ q.1.length * (10 : ℕ) ^ (-e).toNat))

/-- Model of `istream >> int` (used on header lines in pass 1): skip
    whitespace, optional `'+'` or `'-'`, then digits; fails with no digit or
    (since C++11, via `failbit`) on out-of-range values. -/
def streamInt (l : List Char) : Option ℤ :=
  let l1 := l.dropWhile isStreamWS
  let p := match l1 with
    | '-' :: r => ((-1 : ℤ), r)
    | '+' :: r => ((1 : ℤ), r)
    | _ => ((1 : ℤ), l1)
  let ds := p.2.takeWhile Char.isDigit
  if ds = [] then none
  else
    let v : ℤ := p.1 * (digitsVal ds : ℤ)
    if v < INT_MIN ∨ INT_MAX < v then none else some v

/-- `std::string::find(pat) != npos`: `pat` occurs as a contiguous substring. -/
def hasSubstr (pat : List Char) : List Char → Bool
  | [] => pat.isPrefixOf []
  | c :: t => pat.isPrefixOf (c :: t) || hasSubstr pat t

/-- The pass-1 event-open marker `"<event>"`. -/
def evMark : List Char := "<event>".data

/-- The pass-1 weight marker `"<weight "` (note: not `"<wgt"`). -/
def wMark : List Char := "<weight ".data

/-- Error taxonomy of the parser (each constructor corresponds to one
    `throw std::runtime_error` site). -/
inductive LheErr
  | cannotOpen
  | dimensionScan (line : ℕ)
  | emptyInput
  | tokenParse (event : ℕ)
deriving DecidableEq

/-- Loop body of `countDimensions`: scan lines, keeping the 1-based count `n`
    of lines consumed so far and the three accumulators.  On a line containing
    `"<event>"`, the next line is consumed (`std::getline` again) and its
    leading `istream` integer is added to `n_particles`; at EOF that inner
    `getline` fails leaving an empty line, so the parse fails.  The consumed
    header line (not the marker line) then feeds the `"<weight "` check, as in
    the C++ where `line` has been overwritten. -/
def scanAux : List (List Char) → ℕ → ℤ → ℤ → ℤ → Except LheErr (ℤ × ℤ × ℤ)
  | [], _, ne, nw, np => .ok (ne, nw, np)
  | line :: rest, n, ne, nw, np =>
    if hasSubstr evMark line then
      match rest with
      | [] => .error (.dimensionScan (n + 2))
      | hdr :: rest' =>
        match streamInt hdr with
        | none => .error (.dimensionScan (n + 2))
        | some k =>
          scanAux rest' (n + 2) (ne + 1) (nw + (if hasSubstr wMark hdr then 1 else 0)) (np + k)
    else
      scanAux rest (n + 1) ne (nw + (if hasSubstr wMark line then 1 else 0)) np

/-- Pass 1 (`countDimensions`): `none` models an unopenable stream. -/
def countDimensions : Option (List (List Char)) → Except LheErr (ℤ × ℤ × ℤ)
  | none => .error .cannotOpen
  | some lines => scanAux lines 0 0 0 0

/-! ## Pass 2: the capture state machine -/

def NO_CAPTURE : ℕ := 0
def EVENT_HEADER : ℕ := 1
def WGT_TAG : ℕ := 2

/-- The tag name `"event"` compared against by the SAX callbacks. -/
def evTag : String := "event"

/-- The tag name `"wgt"` compared against by the SAX callbacks. -/
def wgtTag : String := "wgt"

/-- The mutable `ParseState` of the C++ (`struct ParseState`).  The four raw
    pointers become total functions on flat indices. -/
structure ParseState where
  fevt : ℕ → ℚ
  ievt : ℕ → ℤ
  fptc : ℕ → ℚ
  iptc : ℕ → ℤ
  n_weights : ℕ
  n_events : ℕ
  n_particles : ℕ
  cur_event : ℕ
  cur_weight : ℕ
  cur_particle : ℕ
  capture : ℕ
  charBuf : List Char

/-- Pointwise write into a flat array. -/
def upd {α : Type} (a : ℕ → α) (i : ℕ) (v : α) : ℕ → α :=
  fun j => if j = i then v else a j

/-- Token scanning step of `consume_next`: skip leading `" \t\n\r"`; with
    nothing left return `(none, sv)` (the view untouched); otherwise return
    the token (maximal run of non-whitespace) and the view advanced past it. -/
def nextTok (sv : List Char) : Option (List Char) × List Char :=
  let sv1 := sv.dropWhile isWS
  match sv1 with
  | [] => (none, sv)
  | _ :: _ => (some (sv1.takeWhile (fun c => !isWS c)), sv1.dropWhile (fun c => !isWS c))

/-- The view after one `consume_next` (independent of parse success). -/
def advanceTok (sv : List Char) : List Char := (nextTok sv).2

/-- The `k`-th whitespace-delimited token of the view. -/
def tokAt (k : ℕ) (sv : List Char) : Option (List Char) :=
  (nextTok (advanceTok^[k] sv)).1

/-- The template `consume_next(sv, value)` writing through a reference into a
    flat array cell `i`: the view always advances past the token; the cell is
    written only when `parse` succeeds (`from_chars` leaves the value
    untouched on failure). -/
def consumeTok {α : Type} (parse : List Char → Option α) (sv : List Char)
    (a : ℕ → α) (i : ℕ) : (ℕ → α) × List Char :=
  match nextTok sv with
  | (none, rest) => (a, rest)
  | (some t, rest) =>
    match parse t with
    | some v => (upd a i v, rest)
    | none => (a, rest)

/-- A `for` loop of `k` consecutive `consume_next` calls into cells
    `i, i+1, ...` (the header-reals loop and the two per-particle loops). -/
def consumeLoop {α : Type} (parse : List Char → Option α) :
    ℕ → List Char → (ℕ → α) → ℕ → (ℕ → α) × List Char
  | 0, sv, a, _ => (a, sv)
  | k + 1, sv, a, i =>
    let c := consumeTok parse sv a i
    consumeLoop parse k c.2 c.1 (i + 1)

/-- One iteration of the particle loop of `processEvent`: write the owning
    event index into `ip[0]`, then consume 6 ints into `ip[1..6]` and 7
    doubles into `fp[0..6]` of particle row `cp`. -/
def writePtcOne (sv : List Char) (ip : ℕ → ℤ) (fp : ℕ → ℚ) (cp ce : ℕ) :
    (ℕ → ℤ) × (ℕ → ℚ) × List Char :=
  let ip0 := upd ip (7 * cp) (ce : ℤ)
  let ci := consumeLoop fromCharsInt 6 sv ip0 (7 * cp + 1)
  let cr := consumeLoop fromCharsRat 7 ci.2 fp (7 * cp)
  (ci.1, cr.1, cr.2)

/-- The particle loop `for (p = 0; p < n_ptc; p++)` of `processEvent`,
    threading the view, the two particle arrays and the global particle
    cursor. -/
def writePtcLoop : ℕ → List Char → (ℕ → ℤ) → (ℕ → ℚ) → ℕ → ℕ →
    (ℕ → ℤ) × (ℕ → ℚ) × List Char × ℕ
  | 0, sv, ip, fp, cp, _ => (ip, fp, sv, cp)
  | n + 1, sv, ip, fp, cp, ce =>
    let o := writePtcOne sv ip fp cp ce
    writePtcLoop n o.2.2 o.1 o.2.1 (cp + 1) ce

/-- Success path of `processEvent` once NUP parsed as `nPtc` with the view at
    `sv1`: write `ie[0] = n_ptc`, consume IDPRUP into `ie[1]`, four doubles
    into `fe[0..3]`, then run the particle loop (for a negative NUP the C++
    loop body never runs). -/
def processEventCore (s : ParseState) (nPtc : ℤ) (sv1 : List Char) : ParseState :=
  let ievt0 := upd s.ievt (s.cur_event * 2) nPtc
  let ci := consumeTok fromCharsInt sv1 ievt0 (s.cur_event * 2 + 1)
  let cf := consumeLoop fromCharsRat 4 ci.2 s.fevt (s.cur_event * (4 + s.n_weights))
  let pl := writePtcLoop nPtc.toNat cf.2 s.iptc s.fptc s.cur_particle s.cur_event
  { s with ievt := ci.1, fevt := cf.1, iptc := pl.1, fptc := pl.2.1,
           cur_particle := pl.2.2.2 }

/-- `processEvent`: parse the mandatory NUP from the buffered text; on
    failure throw (`TokenParseError` carrying the current event index),
    otherwise fill the event row and particle rows. -/
def processEvent (s : ParseState) : Except LheErr ParseState :=
  match nextTok s.charBuf with
  | (none, _) => .error (.tokenParse s.cur_event)
  | (some t0, sv1) =>
    match fromCharsInt t0 with
    | none => .error (.tokenParse s.cur_event)
    | some nPtc => .ok (processEventCore s nPtc sv1)

/-- `processWeight`: best-effort parse of one double into
    `fe[4 + cur_weight]`, then `cur_weight++`, clear the buffer and leave
    capture mode.  Never fails. -/
def processWeight (s : ParseState) : ParseState :=
  let r := consumeTok fromCharsRat s.charBuf s.fevt
    (s.cur_event * (4 + s.n_weights) + (4 + s.cur_weight))
  { s with fevt := r.1, cur_weight := s.cur_weight + 1, charBuf := [],
           capture := NO_CAPTURE }

/-- SAX `onStart`.  Note the C++ control flow: the `name == "event"` branch
    does not clear `charBuf`; a start tag seen while capturing the header
    flushes the event; and the separate `name == "wgt"` check runs after
    either branch. -/
def onStart (s : ParseState) (name : String) : Except LheErr ParseState :=
  if name = evTag then
    let s1 := { s with capture := EVENT_HEADER, cur_weight := 0 }
    .ok (if name = wgtTag then { s1 with capture := WGT_TAG } else s1)
  else if s.capture = EVENT_HEADER then
    match processEvent s with
    | .error e => .error e
    | .ok t =>
      let s1 := { t with charBuf := [], capture := NO_CAPTURE }
      .ok (if name = wgtTag then { s1 with capture := WGT_TAG } else s1)
  else
    .ok (if name = wgtTag then { s with capture := WGT_TAG } else s)

/-- SAX `onEnd`: `</event>` advances the event row cursor; `</wgt>` runs the
    weight extractor. -/
def onEnd (s : ParseState) (name : String) : ParseState :=
  if name = evTag then { s with cur_event := s.cur_event + 1 }
  else if name = wgtTag then processWeight s
  else s

/-- SAX `onChar`: accumulate character data only while capturing
    (`if (s->capture)`). -/
def onChar (s : ParseState) (data : List Char) : ParseState :=
  if s.capture = NO_CAPTURE then s else { s with charBuf := s.charBuf ++ data }

/-- One SAX event from the external tokenizer. -/
inductive XmlEvent
  | startTag (name : String)
  | endTag (name : String)
  | charData (data : List Char)
deriving DecidableEq

/-- Dispatch of one SAX event into the state machine. -/
def step (s : ParseState) : XmlEvent → Except LheErr ParseState
  | .startTag n => onStart s n
  | .endTag n => .ok (onEnd s n)
  | .charData d => .ok (onChar s d)

/-- Feed a list of SAX events through the machine (a thrown
    `TokenParseError` aborts the parse). -/
def runMachine : ParseState → List XmlEvent → Except LheErr ParseState
  | s, [] => .ok s
  | s, e :: evs =>
    match step s e with
    | .error err => .error err
    | .ok s' => runMachine s' evs

/-- The freshly allocated `ParseState` of `parseLHE`: zero-filled arrays
    (`memset`), cursors at 0, no capture, empty buffer. -/
def initState (ne nw np : ℕ) : ParseState :=
  { fevt := fun _ => 0, ievt := fun _ => 0, fptc := fun _ => 0, iptc := fun _ => 0,
    n_weights := nw, n_events := ne, n_particles := np,
    cur_event := 0, cur_weight := 0, cur_particle := 0,
    capture := NO_CAPTURE, charBuf := [] }

/-- Row-major materialization of a flat int array with the given shape. -/
def matI (a : ℕ → ℤ) (rows cols : ℕ) : List (List ℤ) :=
  (List.range rows).map fun r => (List.range cols).map fun c => a (r * cols + c)

/-- Row-major materialization of a flat double array with the given shape. -/
def matR (a : ℕ → ℚ) (rows cols : ℕ) : List (List ℚ) :=
  (List.range rows).map fun r => (List.range cols).map fun c => a (r * cols + c)

/-- The four arrays returned by `parseLHE`, with the shapes of §3. -/
structure LheOutput where
  i_evt : List (List ℤ)
  f_evt : List (List ℚ)
  i_ptc : List (List ℤ)
  f_ptc : List (List ℚ)
deriving DecidableEq

/-- `parseLHE`: pass 1 on the lines, the empty-dimensions check, then the SAX
    pass over the events the tokenizer produces for the same file.  On any
    error no output is returned.  (A tokenizer-reported XML syntax error —
    external to this model — likewise aborts with no output.) -/
def parseLHE (file : Option (List (List Char))) (sax : List XmlEvent) :
    Except LheErr LheOutput :=
  match countDimensions file with
  | .error e => .error e
  | .ok (ne, nw, np) =>
    if ne = 0 ∨ nw = 0 ∨ np = 0 then .error .emptyInput
    else
      match runMachine (initState ne.toNat nw.toNat np.toNat) sax with
      | .error e => .error e
      | .ok s =>
        .ok { i_evt := matI s.ievt ne.toNat 2,
              f_evt := matR s.fevt ne.toNat (4 + nw.toNat),
              i_ptc := matI s.iptc np.toNat 7,
              f_ptc := matR s.fptc np.toNat 7 }

/-! ## Lemmas about `consume_next` and token positions -/

lemma upd_same {α : Type} (a : ℕ → α) (i : ℕ) (v : α) : upd a i v i = v := by
  simp [upd]

lemma upd_ne {α : Type} (a : ℕ → α) (i : ℕ) (v : α) (j : ℕ) (h : j ≠ i) :
    upd a i v j = a j := by
  simp [upd, h]

lemma consumeTok_snd {α : Type} (parse : List Char → Option α) (sv : List Char)
    (a : ℕ → α) (i : ℕ) : (consumeTok parse sv a i).2 = advanceTok sv := by
  unfold consumeTok advanceTok
  rcases h : nextTok sv with ⟨t, rest⟩
  cases t with
  | none => simp
  | some t0 => cases hp : parse t0 <;> simp [hp]

lemma consumeTok_fst_ne {α : Type} (parse : List Char → Option α) (sv : List Char)
    (a : ℕ → α) (i j : ℕ) (h : j ≠ i) : (consumeTok parse sv a i).1 j = a j := by
  unfold consumeTok
  rcases hn : nextTok sv with ⟨t, rest⟩
  cases t with
  | none => simp
  | some t0 => cases hp : parse t0 <;> simp [hp, upd_ne _ _ _ _ h]

lemma consumeTok_fst_fail {α : Type} (parse : List Char → Option α) (sv : List Char)
    (a : ℕ → α) (i : ℕ) (h : ((nextTok sv).1.bind parse) = none) :
    (consumeTok parse sv a i).1 = a := by
  unfold consumeTok
  rcases hn : nextTok sv with ⟨t, rest⟩
  rw [hn] at h
  cases t with
  | none => simp
  | some t0 =>
    simp only [Option.some_bind] at h
    simp [h]

lemma tokAt_zero (sv : List Char) : tokAt 0 sv = (nextTok sv).1 := by
  simp [tokAt]

lemma tokAt_advance (k : ℕ) (sv : List Char) :
    tokAt k (advanceTok sv) = tokAt (k + 1) sv := by
  unfold tokAt
  rw [← Function.iterate_succ_apply]

lemma tokAt_iterate (m k : ℕ) (sv : List Char) :
    tokAt k (advanceTok^[m] sv) = tokAt (m + k) sv := by
  induction m generalizing sv with
  | zero => simp
  | succ m ih =>
    rw [Function.iterate_succ_apply, ih, tokAt_advance]
    congr 1
    omega

lemma tokAt_rest (k : ℕ) (sv : List Char) :
    tokAt k ((nextTok sv).2) = tokAt (k + 1) sv := tokAt_advance k sv

lemma consumeLoop_snd {α : Type} (parse : List Char → Option α) :
    ∀ (k : ℕ) (sv : List Char) (a : ℕ → α) (i : ℕ),
      (consumeLoop parse k sv a i).2 = advanceTok^[k] sv := by
  intro k
  induction k with
  | zero => intro sv a i; simp [consumeLoop]
  | succ k ih =>
    intro sv a i
    rw [consumeLoop, ih, consumeTok_snd, ← Function.iterate_succ_apply]

lemma consumeLoop_fst_out {α : Type} (parse : List Char → Option α) :
    ∀ (k : ℕ) (sv : List Char) (a : ℕ → α) (i j : ℕ), (j < i ∨ i + k ≤ j) →
      (consumeLoop parse k sv a i).1 j = a j := by
  intro k
  induction k with
  | zero => intro sv a i j _; simp [consumeLoop]
  | succ k ih =>
    intro sv a i j h
    rw [consumeLoop, ih _ _ _ _ (by omega), consumeTok_fst_ne _ _ _ _ _ (by omega)]

lemma consumeLoop_fst_fail {α : Type} (parse : List Char → Option α) :
    ∀ (k m : ℕ) (sv : List Char) (a : ℕ → α) (i : ℕ), m < k →
      ((tokAt m sv).bind parse) = none →
      (consumeLoop parse k sv a i).1 (i + m) = a (i + m) := by
  intro k
  induction k with
  | zero => intro m sv a i hm; omega
  | succ k ih =>
    intro m sv a i hm hf
    cases m with
    | zero =>
      rw [tokAt_zero] at hf
      rw [consumeLoop]
      rw [consumeLoop_fst_out _ _ _ _ _ _ (by omega)]
      simp [consumeTok_fst_fail _ _ _ _ hf]
    | succ m' =>
      rw [consumeLoop]
      have hcell : i + (m' + 1) = (i + 1) + m' := by omega
      rw [hcell]
      rw [ih m' _ _ _ (by omega) (by rw [consumeTok_snd, tokAt_advance]; exact hf)]
      rw [consumeTok_fst_ne _ _ _ _ _ (by omega)]

/-! ## Lemmas about the particle loop -/

lemma writePtcOne_sv (sv : List Char) (ip : ℕ → ℤ) (fp : ℕ → ℚ) (cp ce : ℕ) :
    (writePtcOne sv ip fp cp ce).2.2 = advanceTok^[13] sv := by
  unfold writePtcOne
  rw [consumeLoop_snd, consumeLoop_snd, ← Function.iterate_add_apply]

lemma writePtcOne_ip_lt (sv : List Char) (ip : ℕ → ℤ) (fp : ℕ → ℚ) (cp ce i : ℕ)
    (h : i < 7 * cp) : (writePtcOne sv ip fp cp ce).1 i = ip i := by
  unfold writePtcOne
  rw [consumeLoop_fst_out _ _ _ _ _ _ (Or.inl (by omega)), upd_ne _ _ _ _ (by omega)]

lemma writePtcOne_ip_hi (sv : List Char) (ip : ℕ → ℤ) (fp : ℕ → ℚ) (cp ce i : ℕ)
    (h : 7 * cp + 7 ≤ i) : (writePtcOne sv ip fp cp ce).1 i = ip i := by
  unfold writePtcOne
  rw [consumeLoop_fst_out _ _ _ _ _ _ (Or.inr (by omega)), upd_ne _ _ _ _ (by omega)]

lemma writePtcOne_ip_label (sv : List Char) (ip : ℕ → ℤ) (fp : ℕ → ℚ) (cp ce : ℕ) :
    (writePtcOne sv ip fp cp ce).1 (7 * cp) = (ce : ℤ) := by
  unfold writePtcOne
  rw [consumeLoop_fst_out _ _ _ _ _ _ (Or.inl (by omega)), upd_same]

lemma writePtcOne_ip_fail (sv : List Char) (ip : ℕ → ℤ) (fp : ℕ → ℚ) (cp ce j : ℕ)
    (h1 : 1 ≤ j) (h2 : j ≤ 6)
    (hf : ((tokAt (j - 1) sv).bind fromCharsInt) = none) :
    (writePtcOne sv ip fp cp ce).1 (7 * cp + j) = ip (7 * cp + j) := by
  unfold writePtcOne
  have hc : 7 * cp + j = (7 * cp + 1) + (j - 1) := by omega
  rw [hc, consumeLoop_fst_fail _ _ _ _ _ _ (by omega) hf, upd_ne _ _ _ _ (by omega)]

lemma writePtcOne_fp_lt (sv : List Char) (ip : ℕ → ℤ) (fp : ℕ → ℚ) (cp ce i : ℕ)
    (h : i < 7 * cp) : (writePtcOne sv ip fp cp ce).2.1 i = fp i := by
  unfold writePtcOne
  rw [consumeLoop_fst_out _ _ _ _ _ _ (Or.inl (by omega))]

lemma writePtcOne_fp_hi (sv : List Char) (ip : ℕ → ℤ) (fp : ℕ → ℚ) (cp ce i : ℕ)
    (h : 7 * cp + 7 ≤ i) : (writePtcOne sv ip fp cp ce).2.1 i = fp i := by
  unfold writePtcOne
  rw [consumeLoop_fst_out _ _ _ _ _ _ (Or.inr (by omega))]

lemma writePtcOne_fp_fail (sv : List Char) (ip : ℕ → ℤ) (fp : ℕ → ℚ) (cp ce j : ℕ)
    (h : j < 7) (hf : ((tokAt (6 + j) sv).bind fromCharsRat) = none) :
    (writePtcOne sv ip fp cp ce).2.1 (7 * cp + j) = fp (7 * cp + j) := by
  unfold writePtcOne
  rw [consumeLoop_fst_fail _ _ _ _ _ _ (by omega)
    (by rw [consumeLoop_snd, tokAt_iterate]; exact hf)]

lemma writePtcLoop_cp :
    ∀ (n : ℕ) (sv : List Char) (ip : ℕ → ℤ) (fp : ℕ → ℚ) (cp ce : ℕ),
      (writePtcLoop n sv ip fp cp ce).2.2.2 = cp + n := by
  intro n
  induction n with
  | zero => intro sv ip fp cp ce; simp [writePtcLoop]
  | succ n ih =>
    intro sv ip fp cp ce
    rw [writePtcLoop, ih]
    omega

lemma writePtcLoop_ip_lt :
    ∀ (n : ℕ) (sv : List Char) (ip : ℕ → ℤ) (fp : ℕ → ℚ) (cp ce i : ℕ),
      i < 7 * cp → (writePtcLoop n sv ip fp cp ce).1 i = ip i := by
  intro n
  induction n with
  | zero => intro sv ip fp cp ce i _; simp [writePtcLoop]
  | succ n ih =>
    intro sv ip fp cp ce i h
    rw [writePtcLoop, ih _ _ _ _ _ _ (by omega), writePtcOne_ip_lt _ _ _ _ _ _ h]

lemma writePtcLoop_fp_lt :
    ∀ (n : ℕ) (sv : List Char) (ip : ℕ → ℤ) (fp : ℕ → ℚ) (cp ce i : ℕ),
      i < 7 * cp → (writePtcLoop n sv ip fp cp ce).2.1 i = fp i := by
  intro n
  induction n with
  | zero => intro sv ip fp cp ce i _; simp [writePtcLoop]
  | succ n ih =>
    intro sv ip fp cp ce i h
    rw [writePtcLoop, ih _ _ _ _ _ _ (by omega), writePtcOne_fp_lt _ _ _ _ _ _ h]

lemma writePtcLoop_label :
    ∀ (n : ℕ) (sv : List Char) (ip : ℕ → ℤ) (fp : ℕ → ℚ) (cp ce r : ℕ),
      cp ≤ r → r < cp + n → (writePtcLoop n sv ip fp cp ce).1 (7 * r) = (ce : ℤ) := by
  intro n
  induction n with
  | zero => intro sv ip fp cp ce r h1 h2; omega
  | succ n ih =>
    intro sv ip fp cp ce r h1 h2
    rcases Nat.eq_or_lt_of_le h1 with heq | hlt
    · subst heq
      rw [writePtcLoop, writePtcLoop_ip_lt _ _ _ _ _ _ _ (by omega),
        writePtcOne_ip_label]
    · rw [writePtcLoop]
      exact ih _ _ _ _ _ _ (by omega) (by omega)

lemma writePtcLoop_int_fail :
    ∀ (n : ℕ) (sv : List Char) (ip : ℕ → ℤ) (fp : ℕ → ℚ) (cp ce p j : ℕ),
      p < n → 1 ≤ j → j ≤ 6 →
      ((tokAt (13 * p + (j - 1)) sv).bind fromCharsInt) = none →
      (writePtcLoop n sv ip fp cp ce).1 (7 * (cp + p) + j) = ip (7 * (cp + p) + j) := by
  intro n
  induction n with
  | zero => intro sv ip fp cp ce p j hp; omega
  | succ n ih =>
    intro sv ip fp cp ce p j hp h1 h2 hf
    cases p with
    | zero =>
      rw [writePtcLoop, writePtcLoop_ip_lt _ _ _ _ _ _ _ (by omega)]
      simpa using writePtcOne_ip_fail sv ip fp cp ce j h1 h2 (by simpa using hf)
    | succ p' =>
      rw [writePtcLoop]
      have hc : 7 * (cp + (p' + 1)) + j = 7 * ((cp + 1) + p') + j := by ring_nf
      rw [hc, ih _ _ _ _ _ _ _ (by omega) h1 h2
        (by rw [writePtcOne_sv, tokAt_iterate]
            have : 13 + (13 * p' + (j - 1)) = 13 * (p' + 1) + (j - 1) := by omega
            rw [this]; exact hf)]
      exact writePtcOne_ip_hi _ _ _ _ _ _ (by omega)

lemma writePtcLoop_rat_fail :
    ∀ (n : ℕ) (sv : List Char) (ip : ℕ → ℤ) (fp : ℕ → ℚ) (cp ce p j : ℕ),
      p < n → j < 7 →
      ((tokAt (13 * p + 6 + j) sv).bind fromCharsRat) = none →
      (writePtcLoop n sv ip fp cp ce).2.1 (7 * (cp + p) + j) = fp (7 * (cp + p) + j) := by
  intro n
  induction n with
  | zero => intro sv ip fp cp ce p j hp; omega
  | succ n ih =>
    intro sv ip fp cp ce p j hp h1 hf
    cases p with
    | zero =>
      rw [writePtcLoop, writePtcLoop_fp_lt _ _ _ _ _ _ _ (by omega)]
      simpa using writePtcOne_fp_fail sv ip fp cp ce j h1 (by simpa using hf)
    | succ p' =>
      rw [writePtcLoop]
      have hc : 7 * (cp + (p' + 1)) + j = 7 * ((cp + 1) + p') + j := by ring_nf
      rw [hc, ih _ _ _ _ _ _ _ (by omega) h1
        (by rw [writePtcOne_sv, tokAt_iterate]
            have : 13 + (13 * p' + 6 + j) = 13 * (p' + 1) + 6 + j := by omega
            rw [this]; exact hf)]
      exact writePtcOne_fp_hi _ _ _ _ _ _ (by omega)

/-! ## Lemmas about `processEvent` -/

lemma processEvent_ok_iff (s s' : ParseState) :
    processEvent s = Except.ok s' ↔
      ∃ n, ((nextTok s.charBuf).1.bind fromCharsInt) = some n ∧
        s' = processEventCore s n (nextTok s.charBuf).2 := by
  unfold processEvent
  rcases h : nextTok s.charBuf with ⟨t, rest⟩
  cases t with
  | none => simp
  | some t0 =>
    cases hp : fromCharsInt t0 with
    | none => simp [hp]
    | some n0 =>
      simp only [hp, Option.some_bind, Option.some.injEq, Except.ok.injEq]
      constructor
      · rintro rfl; exact ⟨n0, rfl, rfl⟩
      · rintro ⟨n, rfl, rfl⟩; rfl

lemma processEvent_error_iff (s : ParseState) (e : LheErr) :
    processEvent s = Except.error e ↔
      ((nextTok s.charBuf).1.bind fromCharsInt) = none ∧
        e = LheErr.tokenParse s.cur_event := by
  unfold processEvent
  rcases h : nextTok s.charBuf with ⟨t, rest⟩
  cases t with
  | none => simp [eq_comm]
  | some t0 =>
    cases hp : fromCharsInt t0 with
    | none => simp [hp, eq_comm]
    | some n0 => simp [hp]

lemma processEventCore_cur_event (s : ParseState) (n : ℤ) (sv1 : List Char) :
    (processEventCore s n sv1).cur_event = s.cur_event := rfl

lemma processEventCore_cur_weight (s : ParseState) (n : ℤ) (sv1 : List Char) :
    (processEventCore s n sv1).cur_weight = s.cur_weight := rfl

lemma processEventCore_capture (s : ParseState) (n : ℤ) (sv1 : List Char) :
    (processEventCore s n sv1).capture = s.capture := rfl

lemma processEventCore_charBuf (s : ParseState) (n : ℤ) (sv1 : List Char) :
    (processEventCore s n sv1).charBuf = s.charBuf := rfl

lemma processEventCore_n_weights (s : ParseState) (n : ℤ) (sv1 : List Char) :
    (processEventCore s n sv1).n_weights = s.n_weights := rfl

lemma processEventCore_cur_particle (s : ParseState) (n : ℤ) (sv1 : List Char) :
    (processEventCore s n sv1).cur_particle = s.cur_particle + n.toNat := by
  unfold processEventCore
  exact writePtcLoop_cp _ _ _ _ _ _

lemma processEventCore_iptc_lt (s : ParseState) (n : ℤ) (sv1 : List Char) (i : ℕ)
    (h : i < 7 * s.cur_particle) :
    (processEventCore s n sv1).iptc i = s.iptc i := by
  unfold processEventCore
  exact writePtcLoop_ip_lt _ _ _ _ _ _ _ h

lemma processEventCore_label (s : ParseState) (n : ℤ) (sv1 : List Char) (r : ℕ)
    (h1 : s.cur_particle ≤ r) (h2 : r < s.cur_particle + n.toNat) :
    (processEventCore s n sv1).iptc (7 * r) = (s.cur_event : ℤ) := by
  unfold processEventCore
  exact writePtcLoop_label _ _ _ _ _ _ _ h1 h2


/-! ## Best-effort behaviour of the non-NUP fields -/

lemma processEventCore_idprup_fail (s : ParseState) (n : ℤ) (sv1 : List Char)
    (hf : ((nextTok sv1).1.bind fromCharsInt) = none) :
    (processEventCore s n sv1).ievt (s.cur_event * 2 + 1) =
      s.ievt (s.cur_event * 2 + 1) := by
  show (consumeTok fromCharsInt sv1 (upd s.ievt (s.cur_event * 2) n)
      (s.cur_event * 2 + 1)).1 (s.cur_event * 2 + 1) =
    s.ievt (s.cur_event * 2 + 1)
  rw [consumeTok_fst_fail _ _ _ _ hf, upd_ne _ _ _ _ (by omega)]

lemma processEventCore_fevt_fail (s : ParseState) (n : ℤ) (sv1 : List Char) (j : ℕ)
    (hj : j < 4) (hf : ((tokAt (j + 1) sv1).bind fromCharsRat) = none) :
    (processEventCore s n sv1).fevt (s.cur_event * (4 + s.n_weights) + j) =
      s.fevt (s.cur_event * (4 + s.n_weights) + j) := by
  show (consumeLoop fromCharsRat 4
      (consumeTok fromCharsInt sv1 (upd s.ievt (s.cur_event * 2) n)
        (s.cur_event * 2 + 1)).2
      s.fevt (s.cur_event * (4 + s.n_weights))).1
      (s.cur_event * (4 + s.n_weights) + j) =
    s.fevt (s.cur_event * (4 + s.n_weights) + j)
  rw [consumeLoop_fst_fail _ _ _ _ _ _ hj
    (by rw [consumeTok_snd, tokAt_advance]; exact hf)]

lemma processEventCore_iptc_fail (s : ParseState) (n : ℤ) (sv1 : List Char) (p j : ℕ)
    (hp : p < n.toNat) (h1 : 1 ≤ j) (h2 : j ≤ 6)
    (hf : ((tokAt (5 + (13 * p + (j - 1))) sv1).bind fromCharsInt) = none) :
    (processEventCore s n sv1).iptc (7 * (s.cur_particle + p) + j) =
      s.iptc (7 * (s.cur_particle + p) + j) := by
  show (writePtcLoop n.toNat
      (consumeLoop fromCharsRat 4
        (consumeTok fromCharsInt sv1 (upd s.ievt (s.cur_event * 2) n)
          (s.cur_event * 2 + 1)).2
        s.fevt (s.cur_event * (4 + s.n_weights))).2
      s.iptc s.fptc s.cur_particle s.cur_event).1 (7 * (s.cur_particle + p) + j) =
    s.iptc (7 * (s.cur_particle + p) + j)
  refine writePtcLoop_int_fail _ _ _ _ _ _ _ _ hp h1 h2 ?_
  rw [consumeLoop_snd, consumeTok_snd, tokAt_iterate, tokAt_advance]
  have hidx : 4 + (13 * p + (j - 1)) + 1 = 5 + (13 * p + (j - 1)) := by omega
  rw [hidx]
  exact hf

lemma processEventCore_fptc_fail (s : ParseState) (n : ℤ) (sv1 : List Char) (p j : ℕ)
    (hp : p < n.toNat) (hj : j < 7)
    (hf : ((tokAt (5 + (13 * p + 6 + j)) sv1).bind fromCharsRat) = none) :
    (processEventCore s n sv1).fptc (7 * (s.cur_particle + p) + j) =
      s.fptc (7 * (s.cur_particle + p) + j) := by
  show (writePtcLoop n.toNat
      (consumeLoop fromCharsRat 4
        (consumeTok fromCharsInt sv1 (upd s.ievt (s.cur_event * 2) n)
          (s.cur_event * 2 + 1)).2
        s.fevt (s.cur_event * (4 + s.n_weights))).2
      s.iptc s.fptc s.cur_particle s.cur_event).2.1 (7 * (s.cur_particle + p) + j) =
    s.fptc (7 * (s.cur_particle + p) + j)
  refine writePtcLoop_rat_fail _ _ _ _ _ _ _ _ hp hj ?_
  rw [consumeLoop_snd, consumeTok_snd, tokAt_iterate, tokAt_advance]
  have hidx : 4 + (13 * p + 6 + j) + 1 = 5 + (13 * p + 6 + j) := by omega
  rw [hidx]
  exact hf

/-! ## Lemmas about the SAX callbacks and machine runs -/

lemma evTag_ne_wgtTag : evTag ≠ wgtTag := by decide

lemma onStart_event (s : ParseState) :
    onStart s evTag = Except.ok { s with capture := EVENT_HEADER, cur_weight := 0 } := by
  simp [onStart, evTag_ne_wgtTag]

lemma onStart_shape_hdr_err (s : ParseState) (nm : String) (e : LheErr)
    (hnm : nm ≠ evTag) (hc : s.capture = EVENT_HEADER)
    (hpe : processEvent s = Except.error e) : onStart s nm = Except.error e := by
  unfold onStart
  rw [if_neg hnm, if_pos hc, hpe]

lemma onStart_shape_hdr (s : ParseState) (nm : String) (t : ParseState)
    (hnm : nm ≠ evTag) (hc : s.capture = EVENT_HEADER)
    (hpe : processEvent s = Except.ok t) :
    onStart s nm = Except.ok (if nm = wgtTag
      then { t with charBuf := [], capture := WGT_TAG }
      else { t with charBuf := [], capture := NO_CAPTURE }) := by
  unfold onStart
  rw [if_neg hnm, if_pos hc, hpe]

lemma onStart_shape_idle (s : ParseState) (nm : String)
    (hnm : nm ≠ evTag) (hc : ¬s.capture = EVENT_HEADER) :
    onStart s nm = Except.ok (if nm = wgtTag then { s with capture := WGT_TAG } else s) := by
  unfold onStart
  rw [if_neg hnm, if_neg hc]

lemma processWeight_cur_weight (s : ParseState) :
    (processWeight s).cur_weight = s.cur_weight + 1 := rfl

lemma processWeight_capture (s : ParseState) :
    (processWeight s).capture = NO_CAPTURE := rfl

lemma processWeight_charBuf (s : ParseState) :
    (processWeight s).charBuf = [] := rfl

lemma processWeight_iptc (s : ParseState) : (processWeight s).iptc = s.iptc := rfl

lemma processWeight_cur_particle (s : ParseState) :
    (processWeight s).cur_particle = s.cur_particle := rfl

lemma processWeight_cur_event (s : ParseState) :
    (processWeight s).cur_event = s.cur_event := rfl

lemma processWeight_fevt_fail (s : ParseState)
    (h : ((nextTok s.charBuf).1.bind fromCharsRat) = none) :
    (processWeight s).fevt = s.fevt := by
  unfold processWeight
  exact consumeTok_fst_fail _ _ _ _ h

/-- Weight contribution of one SAX event: 1 for `tag-end "wgt"`, else 0. -/
def evWgt : XmlEvent → ℕ
  | .startTag _ => 0
  | .endTag nm => if nm = wgtTag then 1 else 0
  | .charData _ => 0

/-- Number of `tag-end "wgt"` events in a list. -/
def wgtEnds : List XmlEvent → ℕ
  | [] => 0
  | e :: r => evWgt e + wgtEnds r

lemma onStart_cur_weight_of_ne (s : ParseState) (nm : String) (s' : ParseState)
    (hnm : nm ≠ evTag) (h : onStart s nm = Except.ok s') :
    s'.cur_weight = s.cur_weight := by
  by_cases hc : s.capture = EVENT_HEADER
  · cases hpe : processEvent s with
    | error e => rw [onStart_shape_hdr_err s nm e hnm hc hpe] at h; cases h
    | ok t =>
      rw [onStart_shape_hdr s nm t hnm hc hpe] at h
      obtain ⟨n, -, rfl⟩ := (processEvent_ok_iff s t).mp hpe
      cases h
      by_cases hw : nm = wgtTag
      · rw [if_pos hw]
        show (processEventCore s n (nextTok s.charBuf).2).cur_weight = s.cur_weight
        exact processEventCore_cur_weight s n (nextTok s.charBuf).2
      · rw [if_neg hw]
        show (processEventCore s n (nextTok s.charBuf).2).cur_weight = s.cur_weight
        exact processEventCore_cur_weight s n (nextTok s.charBuf).2
  · rw [onStart_shape_idle s nm hnm hc] at h
    cases h
    by_cases hw : nm = wgtTag
    · rw [if_pos hw]
    · rw [if_neg hw]

lemma step_cur_weight (s : ParseState) (e : XmlEvent) (s' : ParseState)
    (hne : e ≠ XmlEvent.startTag evTag) (h : step s e = Except.ok s') :
    s'.cur_weight = s.cur_weight + evWgt e := by
  cases e with
  | startTag nm =>
    have hnm : nm ≠ evTag := by rintro rfl; exact hne rfl
    rw [show evWgt (XmlEvent.startTag nm) = 0 from rfl, Nat.add_zero]
    exact onStart_cur_weight_of_ne s nm s' hnm h
  | endTag nm =>
    have hs' : s' = onEnd s nm := by
      have : step s (XmlEvent.endTag nm) = Except.ok (onEnd s nm) := rfl
      rw [this] at h
      exact (Except.ok.injEq _ _).mp h.symm
    subst hs'
    unfold onEnd
    rw [show evWgt (XmlEvent.endTag nm) = (if nm = wgtTag then 1 else 0) from rfl]
    by_cases hev : nm = evTag
    · rw [if_pos hev, if_neg (by rw [hev]; exact evTag_ne_wgtTag)]
      rfl
    · rw [if_neg hev]
      by_cases hw : nm = wgtTag
      · rw [if_pos hw, if_pos hw, processWeight_cur_weight]
      · rw [if_neg hw, if_neg hw]
        rfl
  | charData d =>
    have hs' : s' = onChar s d := by
      have : step s (XmlEvent.charData d) = Except.ok (onChar s d) := rfl
      rw [this] at h
      exact (Except.ok.injEq _ _).mp h.symm
    subst hs'
    rw [show evWgt (XmlEvent.charData d) = 0 from rfl, Nat.add_zero]
    unfold onChar
    by_cases hc : s.capture = NO_CAPTURE
    · rw [if_pos hc]
    · rw [if_neg hc]

lemma runMachine_cur_weight :
    ∀ (evs : List XmlEvent) (s s' : ParseState),
      XmlEvent.startTag evTag ∉ evs → runMachine s evs = Except.ok s' →
      s'.cur_weight = s.cur_weight + wgtEnds evs := by
  intro evs
  induction evs with
  | nil =>
    intro s s' _ h
    cases h
    rfl
  | cons e evs ih =>
    intro s s' hmem h
    rw [runMachine] at h
    cases hst : step s e with
    | error err => rw [hst] at h; cases h
    | ok s1 =>
      rw [hst] at h
      have h1 := step_cur_weight s e s1 (fun he => hmem (he ▸ List.mem_cons_self e evs)) hst
      have h2 := ih s1 s' (fun hm => hmem (List.mem_cons_of_mem e hm)) h
      rw [h2, h1, wgtEnds]
      omega

/-! ## The particle-row invariant (contiguity and labels) -/

/-- Rows already written into `i_ptc` have non-decreasing owner labels, each
    bounded by the current event cursor. -/
def PtcInv (s : ParseState) : Prop :=
  (∀ r₁ r₂ : ℕ, r₁ ≤ r₂ → r₂ < s.cur_particle → s.iptc (7 * r₁) ≤ s.iptc (7 * r₂)) ∧
  (∀ r : ℕ, r < s.cur_particle → s.iptc (7 * r) ≤ (s.cur_event : ℤ))

lemma PtcInv_of_fields (s s' : ParseState) (hinv : PtcInv s)
    (hi : s'.iptc = s.iptc) (hc : s'.cur_particle = s.cur_particle)
    (he : s.cur_event ≤ s'.cur_event) : PtcInv s' := by
  constructor
  · intro r₁ r₂ h12 h2
    rw [hi]
    exact hinv.1 r₁ r₂ h12 (hc ▸ h2)
  · intro r hr
    rw [hi]
    exact le_trans (hinv.2 r (hc ▸ hr)) (by exact_mod_cast he)

lemma processEventCore_inv (s : ParseState) (n : ℤ) (sv1 : List Char)
    (hinv : PtcInv s) : PtcInv (processEventCore s n sv1) := by
  have hcp := processEventCore_cur_particle s n sv1
  have hce := processEventCore_cur_event s n sv1
  constructor
  · intro r₁ r₂ h12 h2
    rw [hcp] at h2
    by_cases hr2 : r₂ < s.cur_particle
    · rw [processEventCore_iptc_lt s n sv1 _ (by omega),
        processEventCore_iptc_lt s n sv1 _ (by omega)]
      exact hinv.1 r₁ r₂ h12 hr2
    · rw [processEventCore_label s n sv1 r₂ (by omega) (by omega)]
      by_cases hr1 : r₁ < s.cur_particle
      · rw [processEventCore_iptc_lt s n sv1 _ (by omega)]
        exact hinv.2 r₁ hr1
      · rw [processEventCore_label s n sv1 r₁ (by omega) (by omega)]
  · intro r hr
    rw [hcp] at hr
    rw [hce]
    by_cases hr1 : r < s.cur_particle
    · rw [processEventCore_iptc_lt s n sv1 _ (by omega)]
      exact hinv.2 r hr1
    · rw [processEventCore_label s n sv1 r (by omega) (by omega)]

lemma onStart_inv (s : ParseState) (nm : String) (s' : ParseState)
    (hinv : PtcInv s) (h : onStart s nm = Except.ok s') : PtcInv s' := by
  by_cases h1 : nm = evTag
  · subst h1
    rw [onStart_event] at h
    cases h
    exact PtcInv_of_fields s _ hinv rfl rfl le_rfl
  · by_cases hc : s.capture = EVENT_HEADER
    · cases hpe : processEvent s with
      | error e => rw [onStart_shape_hdr_err s nm e h1 hc hpe] at h; cases h
      | ok t =>
        rw [onStart_shape_hdr s nm t h1 hc hpe] at h
        obtain ⟨n, -, rfl⟩ := (processEvent_ok_iff s t).mp hpe
        have hct : PtcInv (processEventCore s n (nextTok s.charBuf).2) :=
          processEventCore_inv s n _ hinv
        cases h
        by_cases hw : nm = wgtTag
        · rw [if_pos hw]
          exact PtcInv_of_fields _ _ hct rfl rfl le_rfl
        · rw [if_neg hw]
          exact PtcInv_of_fields _ _ hct rfl rfl le_rfl
    · rw [onStart_shape_idle s nm h1 hc] at h
      cases h
      by_cases hw : nm = wgtTag
      · rw [if_pos hw]
        exact PtcInv_of_fields s _ hinv rfl rfl le_rfl
      · rw [if_neg hw]
        exact hinv

lemma onEnd_inv (s : ParseState) (nm : String) (hinv : PtcInv s) :
    PtcInv (onEnd s nm) := by
  unfold onEnd
  by_cases hev : nm = evTag
  · rw [if_pos hev]
    exact PtcInv_of_fields s _ hinv rfl rfl (by simp)
  · rw [if_neg hev]
    by_cases hw : nm = wgtTag
    · rw [if_pos hw]
      exact PtcInv_of_fields s _ hinv (processWeight_iptc s)
        (processWeight_cur_particle s) (le_of_eq (processWeight_cur_event s).symm)
    · rw [if_neg hw]
      exact hinv

lemma onChar_inv (s : ParseState) (d : List Char) (hinv : PtcInv s) :
    PtcInv (onChar s d) := by
  unfold onChar
  by_cases hc : s.capture = NO_CAPTURE
  · rw [if_pos hc]; exact hinv
  · rw [if_neg hc]
    exact PtcInv_of_fields s _ hinv rfl rfl le_rfl

lemma step_inv (s : ParseState) (e : XmlEvent) (s' : ParseState)
    (hinv : PtcInv s) (h : step s e = Except.ok s') : PtcInv s' := by
  cases e with
  | startTag nm => exact onStart_inv s nm s' hinv h
  | endTag nm =>
    have hs' : s' = onEnd s nm := by
      have hst : step s (XmlEvent.endTag nm) = Except.ok (onEnd s nm) := rfl
      rw [hst] at h
      exact (Except.ok.injEq _ _).mp h.symm
    subst hs'
    exact onEnd_inv s nm hinv
  | charData d =>
    have hs' : s' = onChar s d := by
      have hst : step s (XmlEvent.charData d) = Except.ok (onChar s d) := rfl
      rw [hst] at h
      exact (Except.ok.injEq _ _).mp h.symm
    subst hs'
    exact onChar_inv s d hinv

lemma runMachine_inv :
    ∀ (evs : List XmlEvent) (s s' : ParseState),
      PtcInv s → runMachine s evs = Except.ok s' → PtcInv s' := by
  intro evs
  induction evs with
  | nil => intro s s' hinv h; cases h; exact hinv
  | cons e evs ih =>
    intro s s' hinv h
    rw [runMachine] at h
    cases hst : step s e with
    | error err => rw [hst] at h; cases h
    | ok s1 =>
      rw [hst] at h
      exact ih s1 s' (step_inv s e s1 hinv hst) h

lemma initState_inv (ne nw np : ℕ) : PtcInv (initState ne nw np) := by
  constructor
  · intro r₁ r₂ _ h2
    exact absurd h2 (by simp [initState])
  · intro r hr
    exact absurd hr (by simp [initState])

/-! ## Concrete inputs used by the claims

Each `...Sax` list is the SAX event stream expat emits for the corresponding
line list (start/end tags in document order, with the intervening character
data, which expat may deliver in any chunking — the machine only appends). -/

def rootTag : String := "LesHouchesEvents"

def weightTag : String := "weight"

def rTag : String := "r"

def nlc : List Char := "\n".data

def zeroOneTxt : List Char := "0.1".data

def halfTxt : List Char := "0.5".data

def oneTxt : List Char := "1".data

/-- Character data inside `<event>` of the C1 scenario: header line plus two
    particle lines. -/
def c1Body : List Char :=
  "\n2 1 1.0 2.0 3.0 4.0\n1 1 0 0 0 0 1.5 0.0 0.0 0.0 0.0 0.0 0.0\n-1 1 0 0 0 0 2.5 0.0 0.0 0.0 0.0 0.0 0.0\n".data

/-- The file of the C1 scenario, exactly as the claim describes it: one
    `<event>` with header `2 1 1.0 2.0 3.0 4.0`, two particle lines and one
    `<wgt id="w0">0.5</wgt>` element — and no `<weight ...>` line. -/
def c1Lines : List (List Char) :=
  ([r"<LesHouchesEvents>",
    r"<event>",
    r"2 1 1.0 2.0 3.0 4.0",
    r"1 1 0 0 0 0 1.5 0.0 0.0 0.0 0.0 0.0 0.0",
    r"-1 1 0 0 0 0 2.5 0.0 0.0 0.0 0.0 0.0 0.0",
    r#"<wgt id="w0">0.5</wgt>"#,
    r"</event>",
    r"</LesHouchesEvents>"]).map String.data

def c1Sax : List XmlEvent :=
  [.startTag rootTag, .charData nlc,
   .startTag evTag, .charData c1Body,
   .startTag wgtTag, .charData halfTxt, .endTag wgtTag, .charData nlc,
   .endTag evTag, .charData nlc, .endTag rootTag]

/-- The C1 scenario file with an additional `<weight id="w0">0.1</weight>`
    declaration line, so that the pass-1 `"<weight "` tally is 1. -/
def c1bLines : List (List Char) :=
  ([r"<LesHouchesEvents>",
    r#"<weight id="w0">0.1</weight>"#,
    r"<event>",
    r"2 1 1.0 2.0 3.0 4.0",
    r"1 1 0 0 0 0 1.5 0.0 0.0 0.0 0.0 0.0 0.0",
    r"-1 1 0 0 0 0 2.5 0.0 0.0 0.0 0.0 0.0 0.0",
    r#"<wgt id="w0">0.5</wgt>"#,
    r"</event>",
    r"</LesHouchesEvents>"]).map String.data

def c1bSax : List XmlEvent :=
  [.startTag rootTag, .charData nlc,
   .startTag weightTag, .charData zeroOneTxt, .endTag weightTag, .charData nlc,
   .startTag evTag, .charData c1Body,
   .startTag wgtTag, .charData halfTxt, .endTag wgtTag, .charData nlc,
   .endTag evTag, .charData nlc, .endTag rootTag]

/-- The four arrays produced for `c1bLines`: exactly the values the claim
    lists (the two particle rows carry the chosen particle-line values). -/
def c1Out : LheOutput :=
  { i_evt := [[2, 1]],
    f_evt := [[1, 2, 3, 4, mkRat 1 2]],
    i_ptc := [[0, 1, 1, 0, 0, 0, 0], [0, -1, 1, 0, 0, 0, 0]],
    f_ptc := [[mkRat 3 2, 0, 0, 0, 0, 0, 0], [mkRat 5 2, 0, 0, 0, 0, 0, 0]] }

/-- A file on which `parseLHE` succeeds but the `<event>` block contains no
    child tag, so its header is never flushed by `onStart`. -/
def c3Lines : List (List Char) :=
  ([r"<r>",
    r#"<weight a="b">1</weight>"#,
    r"<event>",
    r"1 7 1.0 2.0 3.0 4.0",
    r"9 1 0 0 0 0 1.0 0 0 0 0 0 0",
    r"</event>",
    r"</r>"]).map String.data

def c3Body : List Char :=
  "\n1 7 1.0 2.0 3.0 4.0\n9 1 0 0 0 0 1.0 0 0 0 0 0 0\n".data

def c3Sax : List XmlEvent :=
  [.startTag rTag, .charData nlc,
   .startTag weightTag, .charData oneTxt, .endTag weightTag, .charData nlc,
   .startTag evTag, .charData c3Body,
   .endTag evTag, .charData nlc, .endTag rTag]

/-- All-zero output: the single event of `c3Lines` is never extracted. -/
def c3Out : LheOutput :=
  { i_evt := [[0, 0]],
    f_evt := [[0, 0, 0, 0, 0]],
    i_ptc := [[0, 0, 0, 0, 0, 0, 0]],
    f_ptc := [[0, 0, 0, 0, 0, 0, 0]] }

/-! ## The claims -/

/-- **C1** (counterexample): on the exact file of the claim — one `<event>`
    block with a `<wgt id="w0">0.5</wgt>` element and no `<weight ...>`
    line — `parse` does fail: pass 1 counts occurrences of `"<weight "`
    (weight-declaration lines), not `<wgt>` elements, so `n_weights = 0` and
    the empty-dimensions check throws before anything is parsed.  This
    refutes the claim's "it does not fail". -/
theorem claim1_scenario_fails :
    countDimensions (some c1Lines) = Except.ok (1, 0, 2) ∧
    parseLHE (some c1Lines) c1Sax = Except.error LheErr.emptyInput :=
  ⟨rfl, rfl⟩

/-- **C1** (amended): the claim's file fails with `EmptyInputError`
    (see `claim1_scenario_fails`); with one additional weight-declaration
    line containing `"<weight "` the scan yields `(n_events, n_weights,
    n_particles) = (1, 1, 2)` and `parse` returns exactly
    `i_evt = [[2, 1]]`, `f_evt = [[1.0, 2.0, 3.0, 4.0, 0.5]]`, `i_ptc` with
    2 rows carrying owning-event index 0, and `f_ptc` with 2 rows of 7
    reals. -/
theorem claim1_scenario_with_weight_line :
    countDimensions (some c1bLines) = Except.ok (1, 1, 2) ∧
    parseLHE (some c1bLines) c1bSax = Except.ok c1Out :=
  ⟨rfl, rfl⟩

/-- **C2** (counterexample): feeding `<event>`, the character data `"7 "`,
    and a second `<event>` start tag leaves the accumulation buffer holding
    `"7 "` — the tag-begin "event" transition does **not** clear the buffer
    as the claim states. -/
theorem claim2_buffer_not_cleared :
    (runMachine (initState 1 1 1)
        [XmlEvent.startTag evTag, XmlEvent.charData c1Body, XmlEvent.startTag evTag]).map
      ParseState.charBuf = Except.ok c1Body ∧ c1Body ≠ [] :=
  ⟨rfl, by decide⟩

/-- **C2** (amended): on every tag-begin "event" the machine resets the
    per-event weight cursor to 0 and enters the header-capturing state, and
    it leaves the character-data buffer unchanged (it is not cleared). -/
theorem claim2_on_start_event (s : ParseState) :
    onStart s evTag = Except.ok { s with capture := EVENT_HEADER, cur_weight := 0 } ∧
    ({ s with capture := EVENT_HEADER, cur_weight := 0 } : ParseState).charBuf = s.charBuf :=
  ⟨onStart_event s, rfl⟩

/-- **C3** (amended): whenever `parse` succeeds, all four arrays have the
    row counts fixed by the pass-1 scan (`i_evt`/`f_evt`: `n_events` rows,
    `i_ptc`/`f_ptc`: `n_particles` rows).  The claim's further equality
    `sum(i_evt[:,0]) = n_particles` does **not** hold for every succeeding
    input — see `claim3_sum_mismatch`. -/
theorem claim3_row_counts (file : Option (List (List Char))) (sax : List XmlEvent)
    (ne nw np : ℤ) (out : LheOutput)
    (hscan : countDimensions file = Except.ok (ne, nw, np))
    (hok : parseLHE file sax = Except.ok out) :
    out.i_evt.length = ne.toNat ∧ out.f_evt.length = ne.toNat ∧
    out.i_ptc.length = np.toNat ∧ out.f_ptc.length = np.toNat := by
  simp only [parseLHE, hscan] at hok
  by_cases hz : ne = 0 ∨ nw = 0 ∨ np = 0
  · rw [if_pos hz] at hok
    cases hok
  · rw [if_neg hz] at hok
    cases hrun : runMachine (initState ne.toNat nw.toNat np.toNat) sax with
    | error e => rw [hrun] at hok; cases hok
    | ok st =>
      rw [hrun] at hok
      simp only [Except.ok.injEq] at hok
      subst hok
      refine ⟨?_, ?_, ?_, ?_⟩ <;> simp [matI, matR]

/-- **C3** (witness): concrete instance of `claim3_row_counts` on the
    successful parse of `c1bLines`. -/
theorem claim3_row_counts_witness :
    ∃ out, parseLHE (some c1bLines) c1bSax = Except.ok out ∧
      out.i_evt.length = (1 : ℤ).toNat := by
  refine ⟨c1Out, rfl, ?_⟩
  exact (claim3_row_counts (some c1bLines) c1bSax 1 1 2 c1Out rfl rfl).1

/-- **C3** (counterexample): on `c3Lines` the parse succeeds, `i_evt` has
    `n_events = 1` rows, but the event block has no child tag so its header
    is never flushed: column 0 of `i_evt` sums to 0 while `n_particles = 1`,
    refuting `sum(i_evt[:,0]) = n_particles` for succeeding inputs. -/
theorem claim3_sum_mismatch :
    countDimensions (some c3Lines) = Except.ok (1, 1, 1) ∧
    parseLHE (some c3Lines) c3Sax = Except.ok c3Out ∧
    (c3Out.i_evt.map (fun row => row.headD 0)).sum = 0 ∧
    ((0 : ℤ) ≠ (1 : ℤ)) :=
  ⟨rfl, rfl, rfl, by decide⟩

/-- **C4**: if the pass-1 scan reports zero events, zero weight occurrences,
    or zero particles, `parseLHE` fails with the empty-input error and
    returns no arrays (the error is raised before the buffers exist). -/
theorem claim4_empty_input (file : Option (List (List Char))) (sax : List XmlEvent)
    (ne nw np : ℤ) (hscan : countDimensions file = Except.ok (ne, nw, np))
    (hz : ne = 0 ∨ nw = 0 ∨ np = 0) :
    parseLHE file sax = Except.error LheErr.emptyInput := by
  simp only [parseLHE, hscan]
  rw [if_pos hz]

/-- **C4** (witness): the empty file scans to `(0, 0, 0)` and fails. -/
theorem claim4_empty_input_witness :
    countDimensions (some ([] : List (List Char))) = Except.ok (0, 0, 0) ∧
    parseLHE (some ([] : List (List Char))) [] = Except.error LheErr.emptyInput :=
  ⟨rfl, claim4_empty_input (some []) [] 0 0 0 rfl (Or.inl rfl)⟩

/-- **C5**: whenever the scanner is at a line containing the event-open
    marker and the following line (or the missing line at EOF) has no
    parsable leading integer, the scan fails with `DimensionScanError`
    carrying the 1-based number of that offending line (`n + 2` when `n`
    lines were already consumed); and an unopenable stream fails with the
    open error.  In either case no dimensions are returned. -/
theorem claim5_scan_errors :
    (∀ (line hdr : List Char) (rest : List (List Char)) (n : ℕ) (ne nw np : ℤ),
        hasSubstr evMark line = true → streamInt hdr = none →
        scanAux (line :: hdr :: rest) n ne nw np =
          Except.error (LheErr.dimensionScan (n + 2))) ∧
    (∀ (line : List Char) (n : ℕ) (ne nw np : ℤ),
        hasSubstr evMark line = true →
        scanAux [line] n ne nw np = Except.error (LheErr.dimensionScan (n + 2))) ∧
    countDimensions none = Except.error LheErr.cannotOpen := by
  refine ⟨?_, ?_, rfl⟩
  · intro line hdr rest n ne nw np hm hp
    rw [scanAux, if_pos hm]
    simp only [hp]
  · intro line n ne nw np hm
    rw [scanAux, if_pos hm]

/-- A non-numeric header line. -/
def badHdr : List Char := "abc".data

/-- **C5** (witness): a file whose first line is `<event>` and whose second
    line is non-numeric fails with the scan error naming line 2; `none`
    (unopenable stream) fails with the open error. -/
theorem claim5_scan_errors_witness :
    scanAux [evMark, badHdr] 0 0 0 0 =
      Except.error (LheErr.dimensionScan 2) ∧
    countDimensions none = Except.error LheErr.cannotOpen :=
  ⟨claim5_scan_errors.1 evMark badHdr [] 0 0 0 0 (by decide) (by decide),
   claim5_scan_errors.2.2⟩

/-- Buffer whose first token is all digits but exceeds `INT_MAX`. -/
def c6xBuf : List Char := "9999999999 5".data

/-- The first token of `c6xBuf`. -/
def c6xTok : List Char := "9999999999".data

/-- A state about to extract an event whose NUP token is `c6xTok`. -/
def c6x : ParseState := { initState 1 1 1 with charBuf := c6xBuf }

/-- A state whose event buffer has a non-numeric first token. -/
def c6w : ParseState := { initState 1 1 1 with charBuf := badHdr }

/-- **C6** (amended): `processEvent` fails — always with
    `TokenParseError` carrying the current event index — exactly when the
    first buffered token is absent or is not parsed by `from_chars<int>`
    (i.e. it does not start with an optionally-signed digit run whose value
    fits in a 32-bit `int`); when that token parses, no other field can make
    it fail. -/
theorem claim6_nup_error (s : ParseState) :
    (((nextTok s.charBuf).1.bind fromCharsInt) = none →
      processEvent s = Except.error (LheErr.tokenParse s.cur_event)) ∧
    (∀ n : ℤ, ((nextTok s.charBuf).1.bind fromCharsInt) = some n →
      ∃ s', processEvent s = Except.ok s') ∧
    (∀ e : LheErr, processEvent s = Except.error e →
      e = LheErr.tokenParse s.cur_event) := by
  refine ⟨?_, ?_, ?_⟩
  · intro h
    exact (processEvent_error_iff s _).mpr ⟨h, rfl⟩
  · intro n h
    exact ⟨_, (processEvent_ok_iff s _).mpr ⟨n, h, rfl⟩⟩
  · intro e h
    exact ((processEvent_error_iff s e).mp h).2

/-- **C6** (witness): a non-numeric first token raises the error with the
    current event index (0 here). -/
theorem claim6_nup_error_witness :
    processEvent c6w = Except.error (LheErr.tokenParse 0) :=
  (claim6_nup_error c6w).1 (by decide)

/-- **C6** (counterexample): the first token `9999999999` consists solely of
    digits — it is numeric and present — yet `processEvent` raises
    `TokenParseError`, because `std::from_chars` reports
    `result_out_of_range` for values beyond `INT_MAX` and `consume_next`
    treats that as failure.  The claim's "if and only if the first token is
    absent or non-numeric" is therefore too narrow. -/
theorem claim6_numeric_token_fails :
    (nextTok c6xBuf).1 = some c6xTok ∧
    (∀ c ∈ c6xTok, c.isDigit = true) ∧
    (2147483647 : ℤ) = INT_MAX ∧
    processEvent c6x = Except.error (LheErr.tokenParse 0) :=
  ⟨rfl, by decide, rfl, rfl⟩

/-- A state whose event buffer is `2 abc`: NUP parses as 2, IDPRUP is
    malformed, every later token is absent. -/
def c7w : ParseState := { initState 1 1 2 with charBuf := "2 abc".data }

/-- **C7**: once NUP parses (value `n`), `processEvent` raises no error no
    matter what the remaining tokens look like, and each further field —
    IDPRUP, the four event-level reals, and all 13 numeric fields of each of
    the `n` particle records — is best-effort: when its token (at its fixed
    whitespace-delimited position) is absent or malformed, the slot keeps
    its zero-initialized value.  Weight extraction (`processWeight`) never
    fails, and on a malformed weight token it leaves `f_evt` entirely
    unchanged. -/
theorem claim7_best_effort :
    (∀ (s : ParseState) (n : ℤ),
      ((nextTok s.charBuf).1.bind fromCharsInt) = some n →
      ∃ s', processEvent s = Except.ok s' ∧
        (((tokAt 1 s.charBuf).bind fromCharsInt) = none →
          s.ievt (s.cur_event * 2 + 1) = 0 →
          s'.ievt (s.cur_event * 2 + 1) = 0) ∧
        (∀ j, j < 4 → ((tokAt (2 + j) s.charBuf).bind fromCharsRat) = none →
          s.fevt (s.cur_event * (4 + s.n_weights) + j) = 0 →
          s'.fevt (s.cur_event * (4 + s.n_weights) + j) = 0) ∧
        (∀ p, p < n.toNat → ∀ j, 1 ≤ j → j ≤ 6 →
          ((tokAt (6 + (13 * p + (j - 1))) s.charBuf).bind fromCharsInt) = none →
          s.iptc (7 * (s.cur_particle + p) + j) = 0 →
          s'.iptc (7 * (s.cur_particle + p) + j) = 0) ∧
        (∀ p, p < n.toNat → ∀ j, j < 7 →
          ((tokAt (6 + (13 * p + 6 + j)) s.charBuf).bind fromCharsRat) = none →
          s.fptc (7 * (s.cur_particle + p) + j) = 0 →
          s'.fptc (7 * (s.cur_particle + p) + j) = 0)) ∧
    (∀ t : ParseState, ((nextTok t.charBuf).1.bind fromCharsRat) = none →
      (processWeight t).fevt = t.fevt) := by
  constructor
  · intro s n h
    refine ⟨processEventCore s n (nextTok s.charBuf).2,
      (processEvent_ok_iff s _).mpr ⟨n, h, rfl⟩, ?_, ?_, ?_, ?_⟩
    · intro hf hz
      rw [processEventCore_idprup_fail s n (nextTok s.charBuf).2
        (by rw [← tokAt_zero, tokAt_rest]; exact hf)]
      exact hz
    · intro j hj hf hz
      rw [processEventCore_fevt_fail s n (nextTok s.charBuf).2 j hj
        (by rw [tokAt_rest, show j + 1 + 1 = 2 + j from by omega]; exact hf)]
      exact hz
    · intro p hp j h1 h2 hf hz
      rw [processEventCore_iptc_fail s n (nextTok s.charBuf).2 p j hp h1 h2
        (by rw [tokAt_rest,
              show 5 + (13 * p + (j - 1)) + 1 = 6 + (13 * p + (j - 1)) from by omega]
            exact hf)]
      exact hz
    · intro p hp j hj hf hz
      rw [processEventCore_fptc_fail s n (nextTok s.charBuf).2 p j hp hj
        (by rw [tokAt_rest,
              show 5 + (13 * p + 6 + j) + 1 = 6 + (13 * p + 6 + j) from by omega]
            exact hf)]
      exact hz
  · intro t ht
    exact processWeight_fevt_fail t ht

/-- **C7** (witness): on the buffer `2 abc` the extraction succeeds (NUP
    parses) and the malformed IDPRUP slot stays 0. -/
theorem claim7_best_effort_witness :
    ∃ s', processEvent c7w = Except.ok s' ∧ s'.ievt 1 = 0 := by
  obtain ⟨s', hok, hid, -, -, -⟩ := claim7_best_effort.1 c7w 2 (by decide)
  exact ⟨s', hok, hid (by decide) (by decide)⟩

/-- Character data of the two-particle event used as the C8 witness. -/
def c8Body : List Char :=
  "2 1 1.0 2.0 3.0 4.0 1 1 0 0 0 0 1 0 0 0 0 0 0 2 1 0 0 0 0 1 0 0 0 0 0 0".data

def c8Sax : List XmlEvent :=
  [.startTag evTag, .charData c8Body,
   .startTag wgtTag, .charData halfTxt, .endTag wgtTag, .endTag evTag]

/-- **C8**: in any successful run from a fresh state, the written particle
    rows (those below the final particle cursor) have non-decreasing
    owning-event labels in document order (each row's `i_ptc[row,0]` is the
    event cursor at the time it was written); hence the rows carrying a
    given event index `e` form a contiguous block, and every row of that
    block carries exactly `e`. -/
theorem claim8_contiguous_labels (ne nw np : ℕ) (sax : List XmlEvent)
    (s' : ParseState)
    (hrun : runMachine (initState ne nw np) sax = Except.ok s') :
    (∀ r₁ r₂ : ℕ, r₁ ≤ r₂ → r₂ < s'.cur_particle →
      s'.iptc (7 * r₁) ≤ s'.iptc (7 * r₂)) ∧
    (∀ (e : ℤ) (r₁ r₂ r₃ : ℕ), r₁ ≤ r₂ → r₂ ≤ r₃ → r₃ < s'.cur_particle →
      s'.iptc (7 * r₁) = e → s'.iptc (7 * r₃) = e → s'.iptc (7 * r₂) = e) := by
  have hinv := runMachine_inv sax (initState ne nw np) s'
    (initState_inv ne nw np) hrun
  refine ⟨hinv.1, ?_⟩
  intro e r₁ r₂ r₃ h12 h23 h3 he1 he3
  have hm1 := hinv.1 r₁ r₂ h12 (by omega)
  have hm2 := hinv.1 r₂ r₃ h23 h3
  rw [he1] at hm1
  rw [he3] at hm2
  omega

/-- **C8** (witness): a run writing two particle rows; the theorem gives in
    particular that the two labels are non-decreasing. -/
theorem claim8_contiguous_labels_witness :
    ∃ s', runMachine (initState 1 1 2) c8Sax = Except.ok s' ∧
      s'.iptc (7 * 0) ≤ s'.iptc (7 * 1) := by
  have h2 : (runMachine (initState 1 1 2) c8Sax).map ParseState.cur_particle =
      Except.ok 2 := rfl
  cases hrun : runMachine (initState 1 1 2) c8Sax with
  | error e => rw [hrun] at h2; simp [Except.map] at h2
  | ok s' =>
    rw [hrun] at h2
    simp only [Except.map, Except.ok.injEq] at h2
    refine ⟨s', rfl, ?_⟩
    exact (claim8_contiguous_labels 1 1 2 c8Sax s' hrun).1 0 1 (by omega) (by omega)

/-- Character data of each event block in the C9 file. -/
def c9Body : List Char :=
  "\n1 1 1.0 2.0 3.0 4.0\n1 1 0 0 0 0 1 2 3 4 5 6 7\n".data

/-- A file with one plain `<event>` block and one `<event npart="1">` block
    (an event-open tag carrying an attribute). -/
def c9Lines : List (List Char) :=
  ([r"<r>",
    r"<event>",
    r"1 1 1.0 2.0 3.0 4.0",
    r"1 1 0 0 0 0 1 2 3 4 5 6 7",
    r#"<wgt id="a">0.5</wgt>"#,
    r"</event>",
    r#"<event npart="1">"#,
    r"1 1 1.0 2.0 3.0 4.0",
    r"1 1 0 0 0 0 1 2 3 4 5 6 7",
    r#"<wgt id="a">0.5</wgt>"#,
    r"</event>",
    r"</r>"]).map String.data

/-- The SAX stream expat emits for `c9Lines`: the attributed tag is still a
    tag-begin with name `"event"` (attributes are delivered separately and
    the handler ignores them). -/
def c9Sax : List XmlEvent :=
  [.startTag rTag, .charData nlc,
   .startTag evTag, .charData c9Body,
   .startTag wgtTag, .charData halfTxt, .endTag wgtTag, .charData nlc,
   .endTag evTag, .charData nlc,
   .startTag evTag, .charData c9Body,
   .startTag wgtTag, .charData halfTxt, .endTag wgtTag, .charData nlc,
   .endTag evTag, .charData nlc,
   .endTag rTag]

/-- **C9**: on `c9Lines` the pass-1 scan counts a single event — the line
    `<event npart="1">` does not contain the exact substring `"<event>"` —
    while the pass-2 machine, fed the expat events for the same file,
    processes both `event` tags (the final event cursor is 2): the two
    passes disagree on the number of events. -/
theorem claim9_pass_disagreement :
    countDimensions (some c9Lines) = Except.ok (1, 0, 1) ∧
    (runMachine (initState 1 0 1) c9Sax).map ParseState.cur_event =
      Except.ok 2 ∧
    (1 : ℤ) ≠ (2 : ℤ) :=
  ⟨rfl, rfl, by decide⟩

def c10Evs : List XmlEvent := [.endTag wgtTag, .endTag wgtTag]

/-- The state right after `<event>` opens on a fresh `initState 1 1 1`. -/
def c10s1 : ParseState :=
  { initState 1 1 1 with capture := EVENT_HEADER, cur_weight := 0 }

/-- **C10**: `processWeight` always increments the per-event weight cursor
    by exactly one, clears the buffer, and leaves capture mode, with no
    hypothesis on whether the buffered text parsed; consequently, after a
    tag-begin "event" (which zeroes the cursor), any error-free event
    sequence containing no further tag-begin "event" leaves the cursor equal
    to its number of tag-end "wgt" events — with no constraint keeping that
    count below `n_weights`. -/
theorem claim10_weight_cursor :
    (∀ t : ParseState, (processWeight t).cur_weight = t.cur_weight + 1 ∧
      (processWeight t).capture = NO_CAPTURE ∧ (processWeight t).charBuf = []) ∧
    (∀ (s s₁ : ParseState) (evs : List XmlEvent) (s₂ : ParseState),
      onStart s evTag = Except.ok s₁ →
      XmlEvent.startTag evTag ∉ evs →
      runMachine s₁ evs = Except.ok s₂ →
      s₂.cur_weight = wgtEnds evs) := by
  refine ⟨fun t => ⟨rfl, rfl, rfl⟩, ?_⟩
  intro s s₁ evs s₂ hstart hmem hrun
  have h1 : s₁.cur_weight = 0 := by
    rw [onStart_event] at hstart
    cases hstart
    rfl
  have h2 := runMachine_cur_weight evs s₁ s₂ hmem hrun
  rw [h2, h1, Nat.zero_add]

/-- **C10** (witness): two `</wgt>` tags after an `<event>` open leave the
    cursor at 2 even though `n_weights = 1` — no bound is enforced. -/
theorem claim10_weight_cursor_witness :
    ∃ s₁ s₂, onStart (initState 1 1 1) evTag = Except.ok s₁ ∧
      runMachine s₁ c10Evs = Except.ok s₂ ∧
      s₂.cur_weight = wgtEnds c10Evs ∧ wgtEnds c10Evs = 2 ∧
      (initState 1 1 1).n_weights = 1 := by
  refine ⟨c10s1, onEnd (onEnd c10s1 wgtTag) wgtTag,
    onStart_event (initState 1 1 1), rfl, ?_, rfl, rfl⟩
  exact claim10_weight_cursor.2 (initState 1 1 1) c10s1 c10Evs
    (onEnd (onEnd c10s1 wgtTag) wgtTag) (onStart_event (initState 1 1 1))
    (by decide) rfl

end LHE
